import Mathlib

/-!
Verification of the GILC Tesseract core (semantic braid connector,
execution registry, scrollchain sync) against its natural-language
specification.  The Python sources are shallowly embedded: mutable
objects become explicit state passing over association lists keyed by
id, floats become rationals, and runaway recursion is modelled with an
explicit fuel parameter (returning none when the fuel runs out, the
analogue of Python's RecursionError).
-/

namespace GILC

/-- Free-form string-to-string dictionaries (Python Dict[str, Any]
restricted to the shapes the core actually stores). -/
abbrev MetaDict := List (String × String)

/-- Association-list lookup, mirroring Python dict lookup by key. -/
def alistLookup {α : Type} (l : List (String × α)) (k : String) : Option α :=
  (l.find? (fun p => p.1 == k)).map (fun p => p.2)

/-- Association-list insert-or-replace preserving insertion order,
mirroring Python dict assignment. -/
def alistInsert {α : Type} (l : List (String × α)) (k : String) (v : α) :
    List (String × α) :=
  match l with
  | [] => [(k, v)]
  | (k0, v0) :: rest =>
      if k0 == k then (k0, v) :: rest else (k0, v0) :: alistInsert rest k v

/-! ## Braid connector (braid_connector.py) -/

/-- Node metadata as consumed by DocumentNode.__init__: the optional
title and type keys are read; a tags key may also be present (the claim
C4 is about it). -/
structure NodeMeta where
  title : Option String := none
  doc_type : Option String := none
  tags : List String := []
deriving DecidableEq, Repr

/-- A DocumentLink, arena-style: endpoints are referenced by document
id (the Python object references resolve through the braid's node
dict). -/
structure Link where
  source : String
  target : String
  link_type : String
  weight : Rat
  metadata : MetaDict
deriving DecidableEq, Repr

/-- The symmetric link-type allow-list hard-coded in
DocumentLink.__init__. -/
def symmetricLinkTypes : List String := ["similar_to", "related_to"]

/-- DocumentLink.__init__.  The Python constructor clamps the weight to
[0,1] and, for a symmetric link type, constructs a reverse DocumentLink
and appends it to the target node's link list.  That inner construction
re-enters the same constructor with the same symmetric type, so it is
modelled with fuel: the result is the constructed link together with
the list of (node id, link) appends performed on other nodes, or none
when the recursion never bottoms out (Python's RecursionError). -/
def mkDocumentLink :
    Nat → String → String → String → Rat → MetaDict →
    Option (Link × List (String × Link))
  | 0, _, _, _, _, _ => none
  | fuel + 1, s, t, ty, w, md =>
      let link : Link :=
        { source := s, target := t, link_type := ty
          weight := max 0 (min 1 w), metadata := md }
      if symmetricLinkTypes.contains ty then
        match mkDocumentLink fuel t s ty w md with
        | none => none
        | some (rev, apps) => some (link, apps ++ [(t, rev)])
      else
        some (link, [])

/-- A DocumentNode: id, path, metadata, owned outgoing links, tags.
The Python constructor initialises tags to the empty set (metadata tags
are never extracted) and defaults title/type from metadata. -/
structure DocumentNode where
  id : String
  path : String
  metadata : NodeMeta
  links : List Link := []
  tags : List String := []
  title : String
  doc_type : String
deriving DecidableEq, Repr

/-- Abstract model of a hex digest of a string (hashlib.sha256
hexdigest in the source); no claim depends on its value, only on its
being a function of its input. -/
def sha256Hex (s : String) : String := "sha256:" ++ s

/-- Stem of a path (pathlib.Path(...).stem): final component with the
last extension removed; used only as the default document title. -/
def pathStem (p : String) : String :=
  let base := ((p.splitOn "/").getLast? ).getD p
  match (base.splitOn ".") with
  | [] => base
  | [x] => x
  | parts => String.intercalate "." (parts.dropLast)

/-- DocumentNode.__init__.  Note that self.tags starts empty: tags in
the metadata are not read. -/
def mkDocumentNode (doc_id doc_path : String) (md : NodeMeta) : DocumentNode :=
  let title := md.title.getD (pathStem doc_path)
  let doc_type := md.doc_type.getD "document"
  let node : DocumentNode :=
    { id := doc_id, path := doc_path, metadata := md
      links := [], tags := [], title := title, doc_type := doc_type }
  if node.id == "" then
    { node with id := sha256Hex (node.path ++ ":" ++ node.title ++ ":" ++ node.doc_type) }
  else node

/-- The SemanticBraid container: id-keyed node store, the set of link
types ever used, and the tag index mapping lowercased tag to the ids of
nodes bearing it. -/
structure SemanticBraid where
  nodes : List (String × DocumentNode) := []
  link_types : List String := []
  tag_index : List (String × List String) := []
deriving DecidableEq, Repr

/-- SemanticBraid.add_document: construct the node, insert it by id,
then index every tag in node.tags (which is always empty at this
point). -/
def SemanticBraid.addDocument (g : SemanticBraid) (doc_id doc_path : String)
    (md : NodeMeta) : SemanticBraid :=
  let node := mkDocumentNode doc_id doc_path md
  let idx := node.tags.foldl
    (fun acc tag =>
      let cur := (alistLookup acc tag).getD []
      alistInsert acc tag (if cur.contains node.id then cur else cur ++ [node.id]))
    g.tag_index
  { g with nodes := alistInsert g.nodes node.id node, tag_index := idx }

/-- SemanticBraid.get_document. -/
def SemanticBraid.getDocument (g : SemanticBraid) (doc_id : String) :
    Option DocumentNode :=
  alistLookup g.nodes doc_id

/-- SemanticBraid.find_documents_by_tag: case-insensitive lookup in the
tag index. -/
def SemanticBraid.findDocumentsByTag (g : SemanticBraid) (tag : String) :
    List String :=
  (alistLookup g.tag_index tag.toLower).getD []

/-- Result of SemanticBraid.link_documents: Python returns None when an
endpoint is missing and raises RecursionError when the DocumentLink
constructor never terminates. -/
inductive LinkResult where
  | notFound
  | recursionError
  | ok (g : SemanticBraid) (l : Link)
deriving Repr

/-- Append a link to a node's link list inside the braid. -/
def SemanticBraid.appendLink (g : SemanticBraid) (node_id : String) (l : Link) :
    SemanticBraid :=
  match alistLookup g.nodes node_id with
  | none => g
  | some n => { g with nodes := alistInsert g.nodes node_id { n with links := n.links ++ [l] } }

/-- SemanticBraid.link_documents: both endpoints must exist; the link
type is registered; then DocumentNode.add_link constructs the link
(reverse appends happen inside the constructor, then the link itself is
appended to the source's list). -/
def SemanticBraid.linkDocuments (g : SemanticBraid) (source_id target_id ty : String)
    (w : Rat) (md : MetaDict) (fuel : Nat) : LinkResult :=
  match g.getDocument source_id, g.getDocument target_id with
  | some _, some _ =>
      let g1 := { g with link_types :=
        if g.link_types.contains ty then g.link_types else g.link_types ++ [ty] }
      match mkDocumentLink fuel source_id target_id ty w md with
      | none => .recursionError
      | some (link, apps) =>
          let g2 := apps.foldl (fun acc p => acc.appendLink p.1 p.2) g1
          .ok (g2.appendLink source_id link) link
  | _, _ => .notFound

/-! ### C1 and C7: DocumentLink construction -/

/-- For a symmetric link type the constructor re-enters itself with the
same symmetric type, so no amount of fuel suffices. -/
theorem mkDocumentLink_sym_none (ty : String)
    (hty : symmetricLinkTypes.contains ty = true) :
    ∀ (fuel : Nat) (s t : String) (w : Rat) (md : MetaDict),
      mkDocumentLink fuel s t ty w md = none := by
  intro fuel
  induction fuel with
  | zero => intro s t w md; rfl
  | succ f ih =>
      intro s t w md
      simp only [mkDocumentLink, hty, if_true]
      rw [ih t s w md]

/-- C1: creating an edge of a symmetric type (similar_to or related_to)
never constructs any link at all: the reverse-edge synthesis in
DocumentLink.__init__ re-triggers itself unboundedly (a RecursionError
at runtime), contradicting the claim that exactly one non-recursing
reverse edge is created and that construction terminates. -/
theorem symmetric_link_recursion_never_constructs :
    ∀ (fuel : Nat) (s t : String) (w : Rat) (md : MetaDict),
      mkDocumentLink fuel s t "similar_to" w md = none ∧
      mkDocumentLink fuel s t "related_to" w md = none :=
  fun fuel s t w md =>
    ⟨mkDocumentLink_sym_none "similar_to" rfl fuel s t w md,
     mkDocumentLink_sym_none "related_to" rfl fuel s t w md⟩

/-- C7: whenever DocumentLink construction completes, the stored weight
is max(0, min(1, w)), hence inside [0,1]; the same holds for every link
appended to other nodes during the construction. -/
theorem link_weight_clamped :
    ∀ (fuel : Nat) (s t ty : String) (w : Rat) (md : MetaDict)
      (l : Link) (apps : List (String × Link)),
      mkDocumentLink fuel s t ty w md = some (l, apps) →
      l.weight = max 0 (min 1 w) ∧ 0 ≤ l.weight ∧ l.weight ≤ 1 ∧
      ∀ p ∈ apps, p.2.weight = max 0 (min 1 w) := by
  intro fuel s t ty w md l apps h
  cases fuel with
  | zero => exact absurd h (by simp [mkDocumentLink])
  | succ f =>
      by_cases hty : symmetricLinkTypes.contains ty = true
      · rw [mkDocumentLink_sym_none ty hty (f + 1) s t w md] at h
        exact absurd h (by simp)
      · simp only [mkDocumentLink, hty, if_false, Bool.false_eq_true] at h
        obtain ⟨hl, happs⟩ := Prod.mk.injEq .. ▸ (Option.some.injEq .. ▸ h)
        refine ⟨by rw [← hl], ?_, ?_, ?_⟩
        · rw [← hl]; exact le_max_left 0 (min 1 w)
        · rw [← hl]
          exact max_le (by norm_num) (min_le_left 1 w)
        · intro p hp; rw [← happs] at hp; cases hp

/-- Concrete non-symmetric link used as the C7 witness. -/
def refLink : Link :=
  { source := "a", target := "b", link_type := "references"
    weight := max 0 (min 1 (2 : Rat)), metadata := [] }

/-- C7 witness: constructing a references link with weight 2 stores
weight max(0, min(1, 2)) = 1. -/
theorem link_weight_clamped_witness :
    mkDocumentLink 1 "a" "b" "references" 2 [] = some (refLink, []) ∧
    refLink.weight = max 0 (min 1 (2 : Rat)) ∧
    0 ≤ refLink.weight ∧ refLink.weight ≤ 1 :=
  ⟨rfl,
   (link_weight_clamped 1 "a" "b" "references" 2 [] refLink [] rfl).1,
   (link_weight_clamped 1 "a" "b" "references" 2 [] refLink [] rfl).2.1,
   (link_weight_clamped 1 "a" "b" "references" 2 [] refLink [] rfl).2.2.1⟩

/-- Stable descending insertion of a (target id, weight) pair: a new
element is placed before the first strictly lighter one, so equal
weights keep their original order, matching Python's stable sorted with
reverse=True. -/
def insertByWeightDesc (x : String × Rat) :
    List (String × Rat) → List (String × Rat)
  | [] => [x]
  | y :: ys => if y.2 < x.2 then x :: y :: ys else y :: insertByWeightDesc x ys

/-- Stable sort by weight descending. -/
def sortByWeightDesc (l : List (String × Rat)) : List (String × Rat) :=
  l.foldr insertByWeightDesc []

/-- SemanticBraid.find_related_documents: unknown id yields the empty
list; otherwise the source node's outgoing links are filtered by the
optional type and the inclusive minimum weight, then sorted by weight
descending. -/
def SemanticBraid.findRelatedDocuments (g : SemanticBraid) (doc_id : String)
    (link_type : Option String) (min_weight : Rat) : List (String × Rat) :=
  match g.getDocument doc_id with
  | none => []
  | some node =>
      let related := (node.links.filter
        (fun l => (link_type.all (fun ty => l.link_type == ty)) && min_weight ≤ l.weight)).map
        (fun l => (l.target, l.weight))
      sortByWeightDesc related

/-- Outgoing links of a node id inside the braid (empty when the id is
absent); the BFS reads current.links through the node store. -/
def nodeLinks (g : SemanticBraid) (doc_id : String) : List Link :=
  ((g.getDocument doc_id).map (fun n => n.links)).getD []

/-- One dequeued node's link scan in get_shortest_path: walk the links
in order; a link whose target is unvisited either finishes the search
(error carries the found path, mirroring the early return) or marks the
target visited and appends it to the queue. -/
def expandLinks (target : String) (path : List String) :
    List Link → List String → List (String × List String) →
    Except (List String) (List String × List (String × List String))
  | [], vis, q => .ok (vis, q)
  | l :: ls, vis, q =>
      if vis.contains l.target then expandLinks target path ls vis q
      else if l.target == target then .error (path ++ [target])
      else expandLinks target path ls (vis ++ [l.target])
        (q ++ [(l.target, path ++ [l.target])])

/-- The BFS loop of get_shortest_path.  Python runs
while queue and max_hops >= 0, decrementing max_hops once per dequeued
node; the fuel parameter is max_hops + 1, consumed once per
iteration. -/
def bfsLoop (g : SemanticBraid) (target : String) :
    Nat → List (String × List String) → List String → Option (List String)
  | 0, _, _ => none
  | _ + 1, [], _ => none
  | fuel + 1, (cur, path) :: rest, vis =>
      match expandLinks target path (nodeLinks g cur) vis rest with
      | .error p => some p
      | .ok (vis2, q2) => bfsLoop g target fuel q2 vis2

/-- SemanticBraid.get_shortest_path: None when either endpoint is
missing, the single-node path when source equals target, else BFS with
the hop budget. -/
def SemanticBraid.getShortestPath (g : SemanticBraid) (source_id target_id : String)
    (max_hops : Int) : Option (List String) :=
  match g.getDocument source_id, g.getDocument target_id with
  | some _, some _ =>
      if source_id == target_id then some [source_id]
      else bfsLoop g target_id (max_hops + 1).toNat
        [(source_id, [source_id])] [source_id]
  | _, _ => none

/-- Instrumented BFS loop: same result as bfsLoop, additionally
counting how many nodes are dequeued. -/
def bfsLoopCount (g : SemanticBraid) (target : String) :
    Nat → List (String × List String) → List String →
    Option (List String) × Nat
  | 0, _, _ => (none, 0)
  | _ + 1, [], _ => (none, 0)
  | fuel + 1, (cur, path) :: rest, vis =>
      match expandLinks target path (nodeLinks g cur) vis rest with
      | .error p => (some p, 1)
      | .ok (vis2, q2) =>
          let r := bfsLoopCount g target fuel q2 vis2
          (r.1, r.2 + 1)

/-- Dequeue count of a get_shortest_path call (0 when the search never
starts). -/
def SemanticBraid.getShortestPathDequeues (g : SemanticBraid)
    (source_id target_id : String) (max_hops : Int) : Nat :=
  match g.getDocument source_id, g.getDocument target_id with
  | some _, some _ =>
      if source_id == target_id then 0
      else (bfsLoopCount g target_id (max_hops + 1).toNat
        [(source_id, [source_id])] [source_id]).2
  | _, _ => 0

/-- The instrumented loop agrees with the plain loop and dequeues at
most fuel nodes. -/
theorem bfsLoopCount_spec (g : SemanticBraid) (t : String) :
    ∀ (fuel : Nat) (q : List (String × List String)) (vis : List String),
      (bfsLoopCount g t fuel q vis).1 = bfsLoop g t fuel q vis ∧
      (bfsLoopCount g t fuel q vis).2 ≤ fuel := by
  intro fuel
  induction fuel with
  | zero => intro q vis; exact ⟨rfl, Nat.le_refl 0⟩
  | succ f ih =>
      intro q vis
      cases q with
      | nil => exact ⟨rfl, Nat.zero_le _⟩
      | cons head rest =>
          obtain ⟨cur, path⟩ := head
          cases hE : expandLinks t path (nodeLinks g cur) vis rest with
          | error p =>
              constructor
              · simp [bfsLoopCount, bfsLoop, hE]
              · simp [bfsLoopCount, hE]
          | ok pr =>
              obtain ⟨vis2, q2⟩ := pr
              constructor
              · simp only [bfsLoopCount, bfsLoop, hE]
                exact (ih q2 vis2).1
              · simp only [bfsLoopCount, hE]
                exact Nat.succ_le_succ (ih q2 vis2).2

/-! ### C4, C5, C9: graph queries -/

/-- A freshly constructed DocumentNode has an empty tag set: metadata
tags are never extracted. -/
theorem mkDocumentNode_tags (doc_id doc_path : String) (md : NodeMeta) :
    (mkDocumentNode doc_id doc_path md).tags = [] := by
  simp only [mkDocumentNode]
  split <;> rfl

/-- C4 amended: add_document never changes the tag index, because the
freshly constructed node's tag set is empty (tags supplied in the
metadata are never extracted by DocumentNode.__init__), so no metadata
tag is indexed at insertion time. -/
theorem add_document_tag_index_unchanged :
    ∀ (g : SemanticBraid) (doc_id doc_path : String) (md : NodeMeta),
      (g.addDocument doc_id doc_path md).tag_index = g.tag_index ∧
      (mkDocumentNode doc_id doc_path md).tags = [] := by
  intro g doc_id doc_path md
  refine ⟨?_, mkDocumentNode_tags doc_id doc_path md⟩
  show (mkDocumentNode doc_id doc_path md).tags.foldl _ g.tag_index = g.tag_index
  rw [mkDocumentNode_tags]
  rfl

/-- C4 counterexample: a document added with metadata carrying the tag
alpha is not returned by find_documents_by_tag alpha. -/
theorem metadata_tags_not_indexed_counterexample :
    (SemanticBraid.findDocumentsByTag
      (SemanticBraid.addDocument {} "d1" "/docs/a.md"
        { title := some "T", doc_type := none, tags := ["alpha"] })
      "alpha") = [] := rfl

/-- C9: find_related_documents on an id absent from the node store
returns the empty list (and, being a pure read, leaves the braid
unchanged); no error is raised. -/
theorem find_related_unknown_id_empty :
    ∀ (g : SemanticBraid) (doc_id : String) (link_type : Option String)
      (min_weight : Rat),
      g.getDocument doc_id = none →
      g.findRelatedDocuments doc_id link_type min_weight = [] := by
  intro g doc_id link_type min_weight h
  unfold SemanticBraid.findRelatedDocuments
  rw [h]

/-- C9 witness: the empty braid has no node x, and the query returns
the empty list there. -/
theorem find_related_unknown_id_witness :
    (SemanticBraid.getDocument {} "x") = none ∧
    (SemanticBraid.findRelatedDocuments {} "x" none 0) = [] :=
  ⟨rfl, find_related_unknown_id_empty {} "x" none 0 rfl⟩

/-- C5 amended: the hop budget is spent once per dequeued node, not
once per BFS level: the instrumented loop agrees with get_shortest_path
and dequeues at most max_hops + 1 nodes. -/
theorem hop_budget_counts_dequeues :
    ∀ (g : SemanticBraid) (s t : String) (h : Int),
      g.getShortestPathDequeues s t h ≤ (h + 1).toNat ∧
      ∀ (fuel : Nat) (q : List (String × List String)) (vis : List String),
        (bfsLoopCount g t fuel q vis).1 = bfsLoop g t fuel q vis := by
  intro g s t h
  constructor
  · unfold SemanticBraid.getShortestPathDequeues
    cases hs : g.getDocument s with
    | none => exact Nat.zero_le _
    | some ns =>
        cases ht : g.getDocument t with
        | none => exact Nat.zero_le _
        | some nt =>
            by_cases hst : (s == t) = true
            · simp [hst]
            · simp only [hst, Bool.false_eq_true, if_false]
              exact (bfsLoopCount_spec g t ((h + 1).toNat) _ _).2
  · intro fuel q vis
    exact (bfsLoopCount_spec g t fuel q vis).1

/-- The concrete counterexample graph for C5: A points to B1, B2 and
B3; B3 points to C; C points to T.  All edges use the directional
references type. -/
def cexBraid : SemanticBraid :=
  let g0 : SemanticBraid := {}
  let g1 := g0.addDocument "A" "/A" {}
  let g2 := g1.addDocument "B1" "/B1" {}
  let g3 := g2.addDocument "B2" "/B2" {}
  let g4 := g3.addDocument "B3" "/B3" {}
  let g5 := g4.addDocument "C" "/C" {}
  let g6 := g5.addDocument "T" "/T" {}
  let step (g : SemanticBraid) (s t : String) : SemanticBraid :=
    match g.linkDocuments s t "references" 1 [] 1 with
    | .ok g2 _ => g2
    | _ => g
  step (step (step (step (step g6 "A" "B1") "A" "B2") "A" "B3") "B3" "C") "C" "T"

/-- C5 counterexample: cexBraid holds a 3-edge path A, B3, C, T (found
with hop budget 4), yet get_shortest_path with hop budget 3 returns
None: the budget was consumed by the dequeues of A, B1, B2 and B3, so
it does not bound the depth of the returned path. -/
theorem hop_budget_counterexample :
    cexBraid.getShortestPath "A" "T" 3 = none ∧
    cexBraid.getShortestPath "A" "T" 4 = some ["A", "B3", "C", "T"] := by
  constructor <;> rfl

/-! ## Execution registry (execution_registry.py) -/

/-- Lowercase hexadecimal digit character, as produced by Python's
format specifier x. -/
def hexDigitChar (n : Nat) : Char :=
  if n < 10 then Char.ofNat (48 + n) else Char.ofNat (87 + n)

/-- Most-significant-first hex digits of n; the fuel bounds the
recursion depth and n + 1 always suffices. -/
def toHexCore : Nat → Nat → List Char
  | 0, _ => []
  | fuel + 1, n =>
      if n < 16 then [hexDigitChar n]
      else toHexCore fuel (n / 16) ++ [hexDigitChar (n % 16)]

/-- Python format(n, "x"): unpadded lowercase hex rendering of n. -/
def toHex (n : Nat) : String := String.mk (toHexCore (n + 1) n)

/-- Numeric value of a hex digit character (inverse of hexDigitChar on
digits below 16). -/
def hexCharVal (c : Char) : Nat :=
  if c.toNat < 58 then c.toNat - 48 else c.toNat - 87

/-- Value of a most-significant-first hex digit list. -/
def hexVal (l : List Char) : Nat :=
  l.foldl (fun acc c => 16 * acc + hexCharVal c) 0

theorem hexVal_append_singleton (l : List Char) (c : Char) :
    hexVal (l ++ [c]) = 16 * hexVal l + hexCharVal c := by
  unfold hexVal
  rw [List.foldl_append]
  rfl

theorem hexCharVal_hexDigitChar : ∀ k < 16, hexCharVal (hexDigitChar k) = k := by
  decide

theorem hexDigitChar_ne_dash : ∀ k < 16, hexDigitChar k ≠ '-' := by
  decide

theorem hexVal_toHexCore :
    ∀ (fuel n : Nat), n < 16 ^ fuel → 0 < fuel →
      hexVal (toHexCore fuel n) = n := by
  intro fuel
  induction fuel with
  | zero => intro n _ hf; exact absurd hf (by omega)
  | succ f ih =>
      intro n hn _
      by_cases hlt : n < 16
      · simp only [toHexCore, hlt, if_true]
        show 16 * 0 + hexCharVal (hexDigitChar n) = n
        rw [hexCharVal_hexDigitChar n hlt]
        omega
      · simp only [toHexCore, hlt, if_false]
        have hf : 0 < f := by
          by_contra hf0
          have : f = 0 := by omega
          subst this
          simp at hn
          omega
        have hdiv : n / 16 < 16 ^ f := by
          rw [Nat.div_lt_iff_lt_mul (by norm_num : 0 < 16)]
          calc n < 16 ^ (f + 1) := hn
            _ = 16 ^ f * 16 := by rw [pow_succ]
        rw [hexVal_append_singleton, ih (n / 16) hdiv hf,
          hexCharVal_hexDigitChar (n % 16) (Nat.mod_lt n (by norm_num))]
        omega

theorem self_lt_sixteen_pow (n : Nat) : n < 16 ^ (n + 1) := by
  calc n < 2 ^ n := Nat.lt_two_pow n
    _ ≤ 16 ^ n := Nat.pow_le_pow_left (by norm_num) n
    _ < 16 ^ (n + 1) := Nat.pow_lt_pow_right (by norm_num) (Nat.lt_succ_self n)

theorem toHex_injective (m n : Nat) (h : toHex m = toHex n) : m = n := by
  have hl : toHexCore (m + 1) m = toHexCore (n + 1) n := by
    have := congrArg String.data h
    simpa [toHex] using this
  have hm := hexVal_toHexCore (m + 1) m (self_lt_sixteen_pow m) (Nat.succ_pos m)
  have hn := hexVal_toHexCore (n + 1) n (self_lt_sixteen_pow n) (Nat.succ_pos n)
  rw [← hm, ← hn, hl]

theorem toHexCore_no_dash :
    ∀ (fuel n : Nat) (c : Char), c ∈ toHexCore fuel n → c ≠ '-' := by
  intro fuel
  induction fuel with
  | zero => intro n c hc; cases hc
  | succ f ih =>
      intro n c hc
      by_cases hlt : n < 16
      · simp only [toHexCore, hlt, if_true] at hc
        rcases List.mem_singleton.mp hc with rfl
        exact hexDigitChar_ne_dash n hlt
      · simp only [toHexCore, hlt, if_false] at hc
        rcases List.mem_append.mp hc with h1 | h2
        · exact ih (n / 16) c h1
        · rcases List.mem_singleton.mp h2 with rfl
          exact hexDigitChar_ne_dash (n % 16) (Nat.mod_lt n (by omega))

/-- If two lists agree and each decomposes as a prefix, a dash, and a
dash-free suffix, then the suffixes agree. -/
theorem last_dash_suffix_eq :
    ∀ (l1 l2 r1 r2 : List Char), ('-' ∉ r1) → ('-' ∉ r2) →
      l1 ++ '-' :: r1 = l2 ++ '-' :: r2 → r1 = r2 := by
  intro l1
  induction l1 with
  | nil =>
      intro l2 r1 r2 h1 h2 heq
      cases l2 with
      | nil => exact (List.cons.injEq .. ▸ heq).2
      | cons b bs =>
          obtain ⟨hb, htl⟩ := List.cons.injEq .. ▸ heq
          exfalso
          apply h1
          rw [htl]
          exact List.mem_append_right bs (List.mem_cons_self _ _)
  | cons a as ih =>
      intro l2 r1 r2 h1 h2 heq
      cases l2 with
      | nil =>
          obtain ⟨hb, htl⟩ := List.cons.injEq .. ▸ heq
          exfalso
          apply h2
          rw [← htl]
          exact List.mem_append_right as (List.mem_cons_self _ _)
      | cons b bs =>
          obtain ⟨_, htl⟩ := List.cons.injEq .. ▸ heq
          exact ih bs r1 r2 h1 h2 htl

/-- ExecutionRegistry._generate_execution_id renders
ex-{timestamp:x}-{counter:x}. -/
def genExecutionId (timestampMs counter : Nat) : String :=
  "ex-" ++ toHex timestampMs ++ "-" ++ toHex counter

/-- Code-point lexicographic comparison of character lists, the order
Python uses to compare strings. -/
def charListLt : List Char → List Char → Bool
  | [], [] => false
  | [], _ :: _ => true
  | _ :: _, [] => false
  | a :: as, b :: bs =>
      if a < b then true else if b < a then false else charListLt as bs

/-- Lexicographic string comparison (Python str less-than). -/
def strLexLt (a b : String) : Bool := charListLt a.data b.data

/-- C6 counterexample: within one millisecond, the id of the earlier
call with counter 15 renders as ex-1-f and the id of the later call
with counter 16 renders as ex-1-10, and the later id sorts lexically
before the earlier one, refuting the claimed lexical ordering (the ids
are still distinct). -/
theorem id_lex_order_counterexample :
    genExecutionId 1 15 = "ex-1-f" ∧
    genExecutionId 1 16 = "ex-1-10" ∧
    strLexLt (genExecutionId 1 15) (genExecutionId 1 16) = false ∧
    strLexLt (genExecutionId 1 16) (genExecutionId 1 15) = true := by
  refine ⟨rfl, rfl, ?_, ?_⟩ <;> decide

/-- C6 amended: generated ids determine the counter value, so two
calls with distinct counter values (as successive calls always are,
the counter being incremented on every call) produce distinct ids. -/
theorem execution_id_injective_on_counter :
    ∀ (t1 c1 t2 c2 : Nat),
      genExecutionId t1 c1 = genExecutionId t2 c2 → c1 = c2 := by
  intro t1 c1 t2 c2 h
  have hdata := congrArg String.data h
  have hsplit :
      ('e' :: 'x' :: '-' :: toHexCore (t1 + 1) t1) ++ '-' :: toHexCore (c1 + 1) c1 =
      ('e' :: 'x' :: '-' :: toHexCore (t2 + 1) t2) ++ '-' :: toHexCore (c2 + 1) c2 := by
    simpa [genExecutionId, toHex, String.data_append, List.append_assoc] using hdata
  have hsfx := last_dash_suffix_eq _ _ _ _
    (fun hc => toHexCore_no_dash (c1 + 1) c1 '-' hc rfl)
    (fun hc => toHexCore_no_dash (c2 + 1) c2 '-' hc rfl)
    hsplit
  exact toHex_injective c1 c2 (congrArg String.mk hsfx)

/-- C6 witness: the injectivity theorem applied at a concrete pair of
equal ids. -/
theorem execution_id_injective_witness :
    genExecutionId 5 7 = genExecutionId 5 7 ∧ (7 : Nat) = 7 :=
  ⟨rfl, execution_id_injective_on_counter 5 7 5 7 rfl⟩

/-- ExecutionStatus enum. -/
inductive ExecutionStatus where
  | PENDING
  | RUNNING
  | COMPLETED
  | FAILED
  | CANCELLED
deriving DecidableEq, Repr

/-- The .name attribute of an ExecutionStatus member. -/
def ExecutionStatus.name : ExecutionStatus → String
  | .PENDING => "PENDING"
  | .RUNNING => "RUNNING"
  | .COMPLETED => "COMPLETED"
  | .FAILED => "FAILED"
  | .CANCELLED => "CANCELLED"

/-- ExecutionStatus[name]: lookup by member name. -/
def statusOfName (s : String) : Option ExecutionStatus :=
  if s == "PENDING" then some .PENDING
  else if s == "RUNNING" then some .RUNNING
  else if s == "COMPLETED" then some .COMPLETED
  else if s == "FAILED" then some .FAILED
  else if s == "CANCELLED" then some .CANCELLED
  else none

/-- ExecutionRecord dataclass, fields in declaration order. -/
structure ExecutionRecord where
  execution_id : String
  kernel_name : String
  doc_path : String
  start_time : Rat
  end_time : Option Rat := none
  status : ExecutionStatus := .PENDING
  input_metadata : MetaDict := []
  output : Option MetaDict := none
  error : Option String := none
  context : MetaDict := []
  quantum_seal : Option String := none
  parent_execution_id : Option String := none
  child_executions : List String := []
  metrics : MetaDict := []
deriving DecidableEq, Repr

/-- ExecutionRecord.duration: end minus start when both are set; the
Python truthiness test also treats a zero timestamp as unset. -/
def ExecutionRecord.duration (r : ExecutionRecord) : Option Rat :=
  match r.end_time with
  | some e => if e ≠ 0 ∧ r.start_time ≠ 0 then some (e - r.start_time) else none
  | none => none

/-- Values a serialized record dictionary can hold. -/
inductive DVal where
  | s (v : String)
  | q (v : Rat)
  | oq (v : Option Rat)
  | os (v : Option String)
  | st (v : ExecutionStatus)
  | dict (v : MetaDict)
  | odict (v : Option MetaDict)
  | strs (v : List String)
deriving DecidableEq, Repr

/-- ExecutionRecord.to_dict: asdict output in field order, with the
status replaced by its name string and a computed duration entry
appended under a new key. -/
def ExecutionRecord.toDict (r : ExecutionRecord) : List (String × DVal) :=
  [("execution_id", .s r.execution_id),
   ("kernel_name", .s r.kernel_name),
   ("doc_path", .s r.doc_path),
   ("start_time", .q r.start_time),
   ("end_time", .oq r.end_time),
   ("status", .s r.status.name),
   ("input_metadata", .dict r.input_metadata),
   ("output", .odict r.output),
   ("error", .os r.error),
   ("context", .dict r.context),
   ("quantum_seal", .os r.quantum_seal),
   ("parent_execution_id", .os r.parent_execution_id),
   ("child_executions", .strs r.child_executions),
   ("metrics", .dict r.metrics),
   ("duration", .oq r.duration)]

/-- The keyword parameters accepted by the ExecutionRecord constructor:
exactly its dataclass fields. -/
def recordFieldNames : List String :=
  ["execution_id", "kernel_name", "doc_path", "start_time", "end_time",
   "status", "input_metadata", "output", "error", "context",
   "quantum_seal", "parent_execution_id", "child_executions", "metrics"]

/-- Fetch a key from a serialized dictionary. -/
def dget (data : List (String × DVal)) (k : String) : Option DVal :=
  (data.find? (fun p => p.1 == k)).map (fun p => p.2)

def dStr : Option DVal → Option String
  | some (.s v) => some v
  | _ => none

def dRat : Option DVal → Option Rat
  | some (.q v) => some v
  | _ => none

def dOptRat : Option DVal → Option (Option Rat)
  | none => some none
  | some (.oq v) => some v
  | _ => none

def dStatus : Option DVal → Option ExecutionStatus
  | none => some .PENDING
  | some (.st v) => some v
  | _ => none

def dMeta : Option DVal → Option MetaDict
  | none => some []
  | some (.dict v) => some v
  | _ => none

def dOptMeta : Option DVal → Option (Option MetaDict)
  | none => some none
  | some (.odict v) => some v
  | _ => none

def dOptStr : Option DVal → Option (Option String)
  | none => some none
  | some (.os v) => some v
  | _ => none

def dStrs : Option DVal → Option (List String)
  | none => some []
  | some (.strs v) => some v
  | _ => none

/-- The call ExecutionRecord(**data): Python rejects any keyword that
is not a dataclass field (TypeError) before anything else; required
fields must be present; a present field must carry a value of the
field's shape. -/
def buildRecord (data : List (String × DVal)) : Option ExecutionRecord := do
  let eid ← dStr (dget data "execution_id")
  let kn ← dStr (dget data "kernel_name")
  let dp ← dStr (dget data "doc_path")
  let st0 ← dRat (dget data "start_time")
  let et ← dOptRat (dget data "end_time")
  let stat ← dStatus (dget data "status")
  let im ← dMeta (dget data "input_metadata")
  let outp ← dOptMeta (dget data "output")
  let err ← dOptStr (dget data "error")
  let ctx ← dMeta (dget data "context")
  let qs ← dOptStr (dget data "quantum_seal")
  let pid ← dOptStr (dget data "parent_execution_id")
  let ce ← dStrs (dget data "child_executions")
  let mets ← dMeta (dget data "metrics")
  pure { execution_id := eid, kernel_name := kn, doc_path := dp
         start_time := st0, end_time := et, status := stat
         input_metadata := im, output := outp, error := err, context := ctx
         quantum_seal := qs, parent_execution_id := pid
         child_executions := ce, metrics := mets }

/-- ExecutionRecord.from_dict: convert a string status to the enum
member (KeyError on an unknown name), then call the constructor, which
raises TypeError on any unexpected keyword such as the computed
duration key emitted by to_dict. -/
def ExecutionRecord.fromDict (data : List (String × DVal)) :
    Except String ExecutionRecord :=
  let conv : Except String (List (String × DVal)) :=
    match dget data "status" with
    | some (.s n) =>
        match statusOfName n with
        | none => .error "KeyError: unknown status name"
        | some stat =>
            .ok (data.map (fun p => if p.1 == "status" then (p.1, .st stat) else p))
    | _ => .ok data
  match conv with
  | .error e => .error e
  | .ok data2 =>
      if data2.all (fun p => recordFieldNames.contains p.1) then
        match buildRecord data2 with
        | some r => .ok r
        | none => .error "TypeError: bad constructor arguments"
      else .error "TypeError: unexpected keyword argument"

/-- ExecutionRegistry: id-keyed record store plus the monotonic id
counter. -/
structure ExecutionRegistry where
  records : List (String × ExecutionRecord) := []
  next_execution_id : Nat := 1
deriving DecidableEq, Repr

/-- The records array written by ExecutionRegistry._save_records. -/
def saveDump (reg : ExecutionRegistry) : List (List (String × DVal)) :=
  reg.records.map (fun p => p.2.toDict)

/-- Python int(s, 16): hex digit parse accepting both cases. -/
def parseHexDigit (c : Char) : Option Nat :=
  if 48 ≤ c.toNat ∧ c.toNat ≤ 57 then some (c.toNat - 48)
  else if 97 ≤ c.toNat ∧ c.toNat ≤ 102 then some (c.toNat - 87)
  else if 65 ≤ c.toNat ∧ c.toNat ≤ 70 then some (c.toNat - 55)
  else none

/-- Python int(s, 16) on a plain digit string: none models ValueError. -/
def parseHex (s : String) : Option Nat :=
  if s.isEmpty then none
  else s.data.foldl
    (fun acc c =>
      match acc, parseHexDigit c with
      | some a, some d => some (16 * a + d)
      | _, _ => none)
    (some 0)

/-- execution_id.split('-')[-1]. -/
def lastDashComponent (s : String) : String :=
  ((s.splitOn "-").getLast?).getD s

/-- ExecutionRegistry._load_records: fold the dumped record list into a
fresh registry; a record whose from_dict raises is logged and skipped,
and a successfully parsed record bumps the counter above the hex tail
of its id when that tail parses. -/
def loadRecords (dump : List (List (String × DVal))) : ExecutionRegistry :=
  dump.foldl
    (fun reg rd =>
      match ExecutionRecord.fromDict rd with
      | .error _ => reg
      | .ok rec =>
          let reg1 : ExecutionRegistry :=
            { reg with records := alistInsert reg.records rec.execution_id rec }
          match parseHex (lastDashComponent rec.execution_id) with
          | some n =>
              { reg1 with next_execution_id := max reg1.next_execution_id (n + 1) }
          | none => reg1)
    { records := [], next_execution_id := 1 }

/-- Plain encoding of an optional rational timestamp. -/
def optRatStr : Option Rat → String
  | none => "None"
  | some q => toString q

/-- Plain encoding of an optional string. -/
def optStrStr : Option String → String
  | none => "None"
  | some s => s

/-- Plain encoding of a string dictionary. -/
def metaStr (md : MetaDict) : String :=
  md.foldl (fun acc p => acc ++ p.1 ++ "=" ++ p.2 ++ ";") ""

/-- ExecutionRegistry._generate_quantum_seal: a digest over the record
metadata, the input/output hashes and the sealing-moment wall clock,
modelled through the abstract digest function over a plain encoding of
the same fields the source serializes. -/
def generateQuantumSeal (r : ExecutionRecord) (sealTime : Rat) : String :=
  sha256Hex (r.execution_id ++ "|" ++ r.kernel_name ++ "|" ++ r.doc_path ++ "|" ++
    toString r.start_time ++ "|" ++ optRatStr r.end_time ++ "|" ++
    sha256Hex (metaStr r.input_metadata) ++ "|" ++
    sha256Hex (metaStr (r.output.getD [])) ++ "|" ++
    optStrStr r.parent_execution_id ++ "|" ++ toString sealTime)

/-- ExecutionRegistry.start_execution: allocate the id from the
millisecond clock and the counter, create the record in RUNNING state,
register it with its parent when the parent exists. -/
def ExecutionRegistry.startExecution (reg : ExecutionRegistry)
    (kernel_name doc_path : String) (input_metadata context : MetaDict)
    (parent : Option String) (nowMs : Nat) (now : Rat) :
    String × ExecutionRegistry :=
  let eid := genExecutionId nowMs reg.next_execution_id
  let reg1 : ExecutionRegistry :=
    { reg with next_execution_id := reg.next_execution_id + 1 }
  let rec0 : ExecutionRecord :=
    { execution_id := eid, kernel_name := kernel_name, doc_path := doc_path
      start_time := now, input_metadata := input_metadata, context := context
      status := .RUNNING, parent_execution_id := parent }
  let reg2 : ExecutionRegistry :=
    match parent with
    | some pid =>
        match alistLookup reg1.records pid with
        | some prec =>
            let prec2 : ExecutionRecord :=
              { prec with child_executions := prec.child_executions ++ [eid] }
            { reg1 with records := alistInsert reg1.records pid prec2 }
        | none => reg1
    | none => reg1
  (eid, { reg2 with records := alistInsert reg2.records eid rec0 })

/-- ExecutionRegistry.complete_execution: unknown id is a logged no-op;
otherwise the record is stamped COMPLETED with end time, output,
metrics and a freshly computed seal, with no guard on the previous
status. -/
def ExecutionRegistry.completeExecution (reg : ExecutionRegistry)
    (execution_id : String) (output : MetaDict) (metrics : MetaDict)
    (now sealTime : Rat) : ExecutionRegistry :=
  match alistLookup reg.records execution_id with
  | none => reg
  | some r =>
      let r1 : ExecutionRecord :=
        { r with
            status := .COMPLETED
            end_time := some now
            output := some output
            metrics := metrics }
      let r2 : ExecutionRecord :=
        { r1 with quantum_seal := some (generateQuantumSeal r1 sealTime) }
      { reg with records := alistInsert reg.records execution_id r2 }

/-- ExecutionRegistry.fail_execution: unknown id is a logged no-op;
otherwise the record is stamped FAILED with end time, error string and
metrics, with no guard on the previous status. -/
def ExecutionRegistry.failExecution (reg : ExecutionRegistry)
    (execution_id : String) (err : String) (metrics : MetaDict) (now : Rat) :
    ExecutionRegistry :=
  match alistLookup reg.records execution_id with
  | none => reg
  | some r =>
      let r1 : ExecutionRecord :=
        { r with
            status := .FAILED
            end_time := some now
            error := some err
            metrics := metrics }
      { reg with records := alistInsert reg.records execution_id r1 }

/-- ExecutionRegistry.cancel_execution: mutates the record only when
its status is PENDING or RUNNING. -/
def ExecutionRegistry.cancelExecution (reg : ExecutionRegistry)
    (execution_id : String) (now : Rat) : ExecutionRegistry :=
  match alistLookup reg.records execution_id with
  | none => reg
  | some r =>
      if r.status == .PENDING || r.status == .RUNNING then
        let r1 : ExecutionRecord :=
          { r with status := .CANCELLED, end_time := some now }
        { reg with records := alistInsert reg.records execution_id r1 }
      else reg

/-- The terminal statuses of the record state machine. -/
def isTerminal : ExecutionStatus → Bool
  | .COMPLETED => true
  | .FAILED => true
  | .CANCELLED => true
  | _ => false

/-- Values appearing in the get_execution_stats aggregate. -/
inductive StatVal where
  | n (v : Nat)
  | q (v : Rat)
deriving DecidableEq, Repr

/-- ExecutionRegistry.get_execution_stats: the empty dict on an empty
registry, otherwise an aggregate carrying every count key. -/
def ExecutionRegistry.getExecutionStats (reg : ExecutionRegistry) :
    List (String × StatVal) :=
  if reg.records.isEmpty then []
  else
    let recs := reg.records.map (fun p => p.2)
    let completed := recs.filter (fun r => r.status == .COMPLETED)
    let failed := recs.filter (fun r => r.status == .FAILED)
    let running := recs.filter (fun r => r.status == .RUNNING)
    let pending := recs.filter (fun r => r.status == .PENDING)
    let durations := (completed.map (fun r => r.duration)).filterMap id
    [("total", .n recs.length),
     ("completed", .n completed.length),
     ("failed", .n failed.length),
     ("running", .n running.length),
     ("pending", .n pending.length),
     ("avg_duration", .q (if durations.isEmpty then 0
        else (durations.foldl (fun a b => a + b) 0) / (durations.length : Rat))),
     ("min_duration", .q (match durations with
        | [] => 0
        | d :: ds => ds.foldl min d)),
     ("max_duration", .q (match durations with
        | [] => 0
        | d :: ds => ds.foldl max d)),
     ("kernels_used", .n ((recs.map (fun r => r.kernel_name)).eraseDups.length)),
     ("documents_processed", .n ((recs.map (fun r => r.doc_path)).eraseDups.length))]

/-! ### C2: serialization round-trip -/

/-- from_dict applied to a to_dict output always raises: the serialized
dictionary carries the computed duration key, which is not a
constructor parameter. -/
theorem fromDict_toDict_error (r : ExecutionRecord) :
    ExecutionRecord.fromDict r.toDict =
      .error "TypeError: unexpected keyword argument" := by
  obtain ⟨eid, kn, dp, st0, et, stat, im, outp, err, ctx, qs, pid, ce, mets⟩ := r
  cases stat <;> rfl

/-- C2: the round-trip fails on every record: from_dict rejects the
duration key added by to_dict, _load_records therefore skips every
dumped record, and reloading any saved registry yields an empty record
set with the id counter reset to 1 instead of the persisted state. -/
theorem record_roundtrip_loses_all_records :
    ∀ (r : ExecutionRecord) (reg : ExecutionRegistry),
      ExecutionRecord.fromDict r.toDict =
        .error "TypeError: unexpected keyword argument" ∧
      loadRecords (saveDump reg) =
        { records := [], next_execution_id := 1 } := by
  intro r reg
  refine ⟨fromDict_toDict_error r, ?_⟩
  unfold loadRecords saveDump
  induction reg.records with
  | nil => rfl
  | cons head tail ih =>
      rw [List.map_cons, List.foldl_cons, fromDict_toDict_error head.2]
      exact ih

/-! ### C3: terminal states -/

/-- Registry holding one record just started. -/
def c3Reg1 : ExecutionRegistry :=
  (ExecutionRegistry.startExecution {} "kernelA" "/doc.md" [] [] none 1000 10).2

/-- The id generated for that record. -/
def c3Rid : String :=
  (ExecutionRegistry.startExecution {} "kernelA" "/doc.md" [] [] none 1000 10).1

/-- The registry after completing the record. -/
def c3Reg2 : ExecutionRegistry :=
  c3Reg1.completeExecution c3Rid [("out", "1")] [] 11 12

/-- The registry after then failing the already-completed record. -/
def c3Reg3 : ExecutionRegistry :=
  c3Reg2.failExecution c3Rid "boom" [] 13

/-- C3 counterexample: a record in the terminal COMPLETED state is
moved to FAILED by a subsequent fail_execution call, so terminal states
are not preserved under all registry operations. -/
theorem terminal_not_stable_counterexample :
    ((alistLookup c3Reg2.records c3Rid).map (fun r => r.status) =
      some .COMPLETED) ∧
    ((alistLookup c3Reg3.records c3Rid).map (fun r => r.status) =
      some .FAILED) := by
  exact ⟨rfl, rfl⟩

/-- C3 amended: cancel_execution never mutates a record whose status is
terminal (its PENDING/RUNNING guard fails), while complete_execution
and fail_execution carry no such guard. -/
theorem cancel_preserves_terminal :
    ∀ (reg : ExecutionRegistry) (eid : String) (now : Rat)
      (r : ExecutionRecord),
      alistLookup reg.records eid = some r →
      isTerminal r.status = true →
      reg.cancelExecution eid now = reg := by
  intro reg eid now r hl ht
  unfold ExecutionRegistry.cancelExecution
  rw [hl]
  cases hstat : r.status <;> simp [hstat, isTerminal] at ht ⊢

/-- Concrete registry with one COMPLETED record, for the C3 witness. -/
def c3WitnessReg : ExecutionRegistry :=
  { records := [("e1",
      { execution_id := "e1", kernel_name := "k", doc_path := "/d"
        start_time := 1, end_time := some 2, status := .COMPLETED })]
    next_execution_id := 2 }

/-- C3 witness: cancelling the completed record e1 leaves the registry
unchanged. -/
theorem cancel_preserves_terminal_witness :
    (alistLookup c3WitnessReg.records "e1").map (fun r => r.status) =
      some .COMPLETED ∧
    c3WitnessReg.cancelExecution "e1" 5 = c3WitnessReg :=
  ⟨rfl, cancel_preserves_terminal c3WitnessReg "e1" 5
    { execution_id := "e1", kernel_name := "k", doc_path := "/d"
      start_time := 1, end_time := some 2, status := .COMPLETED } rfl rfl⟩

/-! ### C10: execution stats -/

/-- C10: get_execution_stats returns the empty mapping exactly on an
empty registry; on a non-empty registry the aggregate carries every
count key. -/
theorem execution_stats_empty_iff :
    ∀ (reg : ExecutionRegistry),
      (reg.records = [] → reg.getExecutionStats = []) ∧
      (reg.records ≠ [] → reg.getExecutionStats.map (fun p => p.1) =
        ["total", "completed", "failed", "running", "pending",
         "avg_duration", "min_duration", "max_duration",
         "kernels_used", "documents_processed"]) := by
  intro reg
  constructor
  · intro h
    unfold ExecutionRegistry.getExecutionStats
    rw [h]
    rfl
  · intro h
    unfold ExecutionRegistry.getExecutionStats
    have : reg.records.isEmpty = false := by
      cases hrec : reg.records with
      | nil => exact absurd hrec h
      | cons a l => rfl
    rw [this]
    rfl

/-- Registry with one record, for the C10 witness. -/
def c10Reg : ExecutionRegistry :=
  { records := [("e1",
      { execution_id := "e1", kernel_name := "k", doc_path := "/d"
        start_time := 1, end_time := some 3, status := .COMPLETED })]
    next_execution_id := 2 }

/-- C10 witness: the theorem applied to the empty registry and to a
one-record registry. -/
theorem execution_stats_witness :
    ((({} : ExecutionRegistry).records = []) ∧
      ({} : ExecutionRegistry).getExecutionStats = []) ∧
    ((c10Reg.records ≠ []) ∧
      c10Reg.getExecutionStats.map (fun p => p.1) =
        ["total", "completed", "failed", "running", "pending",
         "avg_duration", "min_duration", "max_duration",
         "kernels_used", "documents_processed"]) :=
  ⟨⟨rfl, (execution_stats_empty_iff {}).1 rfl⟩,
   ⟨fun h => List.noConfusion h,
    (execution_stats_empty_iff c10Reg).2 (fun h => List.noConfusion h)⟩⟩

/-! ## ScrollChain sync (netsync_scrollchain.py) -/

/-- One entry of the external sync log. -/
structure SyncEntry where
  registry_hash : String
  timestamp : String
  registry_path : String
deriving DecidableEq, Repr

/-- The scrollchain ledger file: absent, present but not a JSON dict
(reset on next write), or a dict with an entries list. -/
inductive ScrollState where
  | absent
  | malformed
  | chain (entries : List SyncEntry)
deriving DecidableEq, Repr

/-- The file-system state sync_registry reads and writes: the canonical
JSON text of the kernel registry file (none when missing or
undecodable) and the scrollchain file. -/
structure SyncWorld where
  registryJson : Option String
  scroll : ScrollState
deriving DecidableEq, Repr

/-- Entries visible in a scroll state (the empty list when the file is
absent or malformed). -/
def scrollEntries : ScrollState → List SyncEntry
  | .chain es => es
  | _ => []

/-- ScrollChainSync._compute_registry_hash: the SHA3-256 digest of the
sorted-keys dump of the registry file, or the empty string on a read or
parse failure.  The digest itself is kept abstract as a function
parameter; determinism is its being a function, and a real digest is
never the empty string. -/
def computeRegistryHash (hashFn : String → String) (w : SyncWorld) : String :=
  match w.registryJson with
  | none => ""
  | some s => hashFn s

/-- ScrollChainSync.verify_sync: recompute the registry hash and check
membership in the scrollchain entries. -/
def verifySync (hashFn : String → String) (w : SyncWorld) : Bool :=
  let h := computeRegistryHash hashFn w
  if h == "" then false
  else
    match w.scroll with
    | .chain es => es.any (fun e => e.registry_hash == h)
    | _ => false

/-- ScrollChainSync.sync_registry: compute the hash (failing fast when
it is empty); when the scroll file is readable and already carries an
entry with that exact hash and force is false, succeed without writing;
otherwise append (or create/reset) and then verify the write by
re-reading. -/
def syncRegistry (hashFn : String → String) (w : SyncWorld) (force : Bool)
    (now absPath : String) : (Bool × String) × SyncWorld :=
  let h := computeRegistryHash hashFn w
  if h == "" then ((false, "Failed to compute registry hash"), w)
  else
    let entry : SyncEntry :=
      { registry_hash := h, timestamp := now, registry_path := absPath }
    match w.scroll with
    | .chain es =>
        match es.find? (fun e => e.registry_hash == h), force with
        | some ex, false =>
            ((true, "Registry already synchronized at " ++ ex.timestamp), w)
        | _, _ =>
            let w1 : SyncWorld := { w with scroll := .chain (es ++ [entry]) }
            if verifySync hashFn w1 then
              ((true, "Successfully synchronized registry to ScrollChain at " ++ now), w1)
            else ((false, "Synchronization verification failed"), w1)
    | .malformed =>
        let w1 : SyncWorld := { w with scroll := .chain [entry] }
        if verifySync hashFn w1 then
          ((true, "Successfully synchronized registry to ScrollChain at " ++ now), w1)
        else ((false, "Synchronization verification failed"), w1)
    | .absent =>
        let w1 : SyncWorld := { w with scroll := .chain [entry] }
        if verifySync hashFn w1 then
          ((true, "Successfully synchronized registry to ScrollChain at " ++ now), w1)
        else ((false, "Synchronization verification failed"), w1)

/-- find? over an appended list scans the left part first. -/
theorem find?_append_of_none {α : Type} (p : α → Bool) (l1 l2 : List α)
    (h : l1.find? p = none) : (l1 ++ l2).find? p = l2.find? p := by
  induction l1 with
  | nil => rfl
  | cons a as ih =>
      by_cases ha : p a = true
      · rw [List.find?_cons_of_pos _ ha] at h
        exact absurd h (by simp)
      · have ha2 : ¬ p a = true := ha
        rw [List.find?_cons_of_neg _ ha2] at h
        rw [List.cons_append, List.find?_cons_of_neg _ ha2]
        exact ih h

/-- C8: with the ledger readable and its hash not yet recorded, the
first sync(force=false) succeeds and appends exactly one entry, and a
second sync(force=false) with no ledger mutation in between succeeds
again while appending nothing and leaving the world unchanged. -/
theorem sync_twice_appends_once :
    ∀ (hashFn : String → String) (w : SyncWorld) (r : String)
      (t1 p1 t2 p2 : String),
      w.registryJson = some r →
      hashFn r ≠ "" →
      (∀ e ∈ scrollEntries w.scroll, e.registry_hash ≠ hashFn r) →
      (syncRegistry hashFn w false t1 p1).1.1 = true ∧
      (scrollEntries (syncRegistry hashFn w false t1 p1).2.scroll).length =
        (scrollEntries w.scroll).length + 1 ∧
      (syncRegistry hashFn ((syncRegistry hashFn w false t1 p1).2) false t2 p2).1.1 = true ∧
      (syncRegistry hashFn ((syncRegistry hashFn w false t1 p1).2) false t2 p2).2 =
        (syncRegistry hashFn w false t1 p1).2 := by
  intro hashFn w r t1 p1 t2 p2 hreg hne hnew
  have hbeq : (hashFn r == "") = false := by
    cases hb : hashFn r == "" with
    | false => rfl
    | true => exact absurd (eq_of_beq hb) hne
  obtain ⟨rj, sc⟩ := w
  simp only at hreg
  subst hreg
  have hhash : computeRegistryHash hashFn ⟨some r, sc⟩ = hashFn r := rfl
  cases sc with
  | absent =>
      refine ⟨?_, ?_, ?_, ?_⟩ <;>
        simp [syncRegistry, verifySync, computeRegistryHash, hbeq, scrollEntries]
  | malformed =>
      refine ⟨?_, ?_, ?_, ?_⟩ <;>
        simp [syncRegistry, verifySync, computeRegistryHash, hbeq, scrollEntries]
  | chain es =>
      have hfind : es.find? (fun e => e.registry_hash == hashFn r) = none := by
        rw [List.find?_eq_none]
        intro e he
        simpa using hnew e he
      have hany : es.any (fun e => e.registry_hash == hashFn r) = false := by
        rw [← Bool.not_eq_true, List.any_eq_true]
        rintro ⟨e, he, hb⟩
        exact hnew e he (eq_of_beq hb)
      have hfind2 :
          ((es ++ [({ registry_hash := hashFn r, timestamp := t1, registry_path := p1 } : SyncEntry)]).find?
            (fun e => e.registry_hash == hashFn r)) =
          some ({ registry_hash := hashFn r, timestamp := t1, registry_path := p1 } : SyncEntry) := by
        rw [find?_append_of_none _ es _ hfind]
        simp
      refine ⟨?_, ?_, ?_, ?_⟩ <;>
        simp [syncRegistry, verifySync, computeRegistryHash, hbeq, scrollEntries,
          hfind, hfind2, List.any_append, hany]

/-- Concrete world for the C8 witness: readable registry text reg,
no scrollchain file yet, constant nonempty digest. -/
def c8World : SyncWorld := { registryJson := some "reg", scroll := .absent }

/-- The constant digest used by the C8 witness. -/
def c8Hash : String → String := fun _ => "deadbeef"

/-- C8 witness: the theorem applied to the concrete world. -/
theorem sync_twice_appends_once_witness :
    (c8World.registryJson = some "reg" ∧ c8Hash "reg" ≠ "" ∧
      (∀ e ∈ scrollEntries c8World.scroll, e.registry_hash ≠ c8Hash "reg")) ∧
    ((syncRegistry c8Hash c8World false "t1" "p1").1.1 = true ∧
      (scrollEntries (syncRegistry c8Hash c8World false "t1" "p1").2.scroll).length =
        (scrollEntries c8World.scroll).length + 1 ∧
      (syncRegistry c8Hash ((syncRegistry c8Hash c8World false "t1" "p1").2) false "t2" "p2").1.1 = true ∧
      (syncRegistry c8Hash ((syncRegistry c8Hash c8World false "t1" "p1").2) false "t2" "p2").2 =
        (syncRegistry c8Hash c8World false "t1" "p1").2) :=
  ⟨⟨rfl, by decide, fun e he => absurd he (List.not_mem_nil e)⟩,
   sync_twice_appends_once c8Hash c8World "reg" "t1" "p1" "t2" "p2"
     rfl (by decide) (fun e he => absurd he (List.not_mem_nil e))⟩

end GILC
